import Mathlib

/-!
Verification of the maap-agent-builder workflow-engine specification against
the repository's agent graph definitions.

The embedding covers:
* the message list and its id-keyed merge reducer, as carried by the reflect
  agent's state (src/agents/reflection.py, extending the runtime's AgentState);
* the reflect graph's nodes, conditional edge and fuelled run loop
  (src/agents/reflection.py, executor algorithm from the spec, section 4.3);
* the plan-execute-replan graph's state schema, execute node, decision
  function and conditional-edge table (src/agents/plan_excute_replan.py);
* the long-term-memory agent's memory tools, user-id check and index wait
  loop (src/agents/long_term_memory.py), over the spec's Memory Store
  interface (sections 4.8 and 6);
* the agent loader's validation flow (src/agent_builder/agents/loader.py).
-/

namespace AgentBuilder

/-- A chat message held in an agent graph's state. The graph runtime assigns
each message a unique id when it first enters the state; `content` is the
rendered text of the message. -/
structure Msg where
  id : Nat
  content : String
deriving DecidableEq, Repr

/-- Insertion of one message of a returned update into the accumulated
message list, following the runtime's id-keyed messages reducer (the
add_messages reducer of AgentState, which the source's CustomAgentState
extends): a message whose id already occurs in the list replaces the first
occurrence in place; a message with a fresh id is appended at the end. -/
def upsert : List Msg → Msg → List Msg
  | [], m => [m]
  | a :: rest, m => if a.id = m.id then m :: rest else a :: upsert rest m

/-- The messages-field reducer: every message of the returned update is
upserted, in order, into the existing list. -/
def addMessages (left right : List Msg) : List Msg :=
  right.foldl upsert left

/-- Ids occurring in a message list. -/
def msgIds (ms : List Msg) : List Nat :=
  ms.map Msg.id

lemma upsert_mem (ms : List Msg) (m : Msg)
    (hnd : (msgIds ms).Nodup) (hm : m ∈ ms) :
    upsert ms m = ms := by
  induction ms with
  | nil => cases hm
  | cons a rest ih =>
    have hnd' : a.id ∉ msgIds rest ∧ (msgIds rest).Nodup := by
      simpa [msgIds] using hnd
    rcases List.mem_cons.mp hm with h | h
    · subst h
      simp [upsert]
    · have hne : a.id ≠ m.id := by
        intro he
        exact hnd'.1 (he ▸ List.mem_map_of_mem Msg.id h)
      simp [upsert, hne, ih hnd'.2 h]

lemma foldl_upsert_of_subset (ms : List Msg) (hnd : (msgIds ms).Nodup) :
    ∀ rs : List Msg, (∀ m ∈ rs, m ∈ ms) → rs.foldl upsert ms = ms := by
  intro rs
  induction rs with
  | nil => intro _; rfl
  | cons r rest ih =>
    intro hsub
    have h1 : upsert ms r = ms := upsert_mem ms r hnd (hsub r (List.mem_cons_self r rest))
    simp only [List.foldl_cons, h1]
    exact ih fun m hm => hsub m (List.mem_cons_of_mem r hm)

lemma upsert_fresh (ms : List Msg) (m : Msg) (hf : m.id ∉ msgIds ms) :
    upsert ms m = ms ++ [m] := by
  induction ms with
  | nil => rfl
  | cons a rest ih =>
    have hne : a.id ≠ m.id := by
      intro he
      exact hf (by simp [msgIds, he.symm])
    have hf' : m.id ∉ msgIds rest := fun h => hf (by simp [msgIds] at h ⊢; exact Or.inr h)
    simp [upsert, hne, ih hf']

/-- Merging an update that consists of the existing history followed by one
fresh message reproduces the history and appends exactly the fresh message:
the id-keyed reducer replaces each already-present message by itself and
appends only the new one. -/
theorem addMessages_append_one (ms : List Msg) (m : Msg)
    (hnd : (msgIds ms).Nodup) (hf : m.id ∉ msgIds ms) :
    addMessages ms (ms ++ [m]) = ms ++ [m] := by
  unfold addMessages
  rw [List.foldl_append]
  rw [foldl_upsert_of_subset ms hnd ms (fun _ h => h)]
  simpa using upsert_fresh ms m hf

/-- Label of the message appended by the generate node, from the source
format string in reflection.py generate. -/
def genLabel (itr : Int) (content : String) : String :=
  "generate_" ++ toString itr ++ ":\t" ++ content

/-- Label of the critique message appended by the reflect node, from the
source format string in reflection.py reflect. -/
def reflLabel (itr : Int) (content : String) : String :=
  "reflection_" ++ toString itr ++ ":\treflection: " ++ content

/-- The reflect agent's graph state (source CustomAgentState): the message
history, the last generation, the iteration counter and its cap. The source
reads itr with default 0 and max_iterations with default 3; the model carries
them as total fields initialised accordingly. -/
structure RState where
  messages : List Msg
  final_response : Option String
  itr : Int
  max_iterations : Int
deriving DecidableEq, Repr

/-- The messages value returned by one generate invocation (source generate):
the history read at entry followed by one labeled entry, whose fresh id fid is
assigned by the runtime when the update is merged. -/
def generateMessagesUpdate (s : RState) (fid : Nat) (content : String) : List Msg :=
  s.messages ++ [⟨fid, genLabel s.itr content⟩]

/-- The messages value returned by one reflect invocation (source reflect). -/
def reflectMessagesUpdate (s : RState) (fid : Nat) (content : String) : List Msg :=
  s.messages ++ [⟨fid, reflLabel s.itr content⟩]

/-- State after one generate invocation is merged: the returned messages go
through the id-keyed reducer, final_response and itr overwrite (source
generate returns final_response set to the last sub-agent message and itr
incremented by one). The content argument stands for the react sub-loop's
final message text. -/
def applyGenerate (s : RState) (fid : Nat) (content : String) : RState :=
  { s with
    messages := addMessages s.messages (generateMessagesUpdate s fid content),
    final_response := some content,
    itr := s.itr + 1 }

/-- State after one reflect invocation is merged (source reflect returns only
the messages key). -/
def applyReflect (s : RState) (fid : Nat) (content : String) : RState :=
  { s with messages := addMessages s.messages (reflectMessagesUpdate s fid content) }

/-- C2: each invocation of the generate node extends the messages field by
exactly one new entry, labeled generate_itr for the iteration counter at
entry, and each invocation of the reflect node extends messages by exactly
one new entry labeled reflection_itr; merging the node's returned update
into the messages field duplicates no previously present message — the
post-merge history is literally the old history plus the one new entry. -/
theorem generate_reflect_append_exactly_one (s : RState) (fid : Nat) (c : String)
    (hnd : (msgIds s.messages).Nodup) (hf : fid ∉ msgIds s.messages) :
    (applyGenerate s fid c).messages = s.messages ++ [⟨fid, genLabel s.itr c⟩] ∧
    (applyGenerate s fid c).messages.length = s.messages.length + 1 ∧
    (applyReflect s fid c).messages = s.messages ++ [⟨fid, reflLabel s.itr c⟩] ∧
    (applyReflect s fid c).messages.length = s.messages.length + 1 := by
  have hg : (applyGenerate s fid c).messages = s.messages ++ [⟨fid, genLabel s.itr c⟩] :=
    addMessages_append_one s.messages ⟨fid, genLabel s.itr c⟩ hnd hf
  have hr : (applyReflect s fid c).messages = s.messages ++ [⟨fid, reflLabel s.itr c⟩] :=
    addMessages_append_one s.messages ⟨fid, reflLabel s.itr c⟩ hnd hf
  refine ⟨hg, ?_, hr, ?_⟩
  · rw [hg]; simp
  · rw [hr]; simp

/-- Witness for C2 at a concrete state: one prior message with id 0, fresh id
5, iteration counter 1. -/
theorem generate_reflect_append_exactly_one_witness :
    (applyGenerate ⟨[⟨0, "hello"⟩], none, 1, 3⟩ 5 "out").messages =
      [⟨0, "hello"⟩, ⟨5, genLabel 1 "out"⟩] ∧
    (applyReflect ⟨[⟨0, "hello"⟩], none, 1, 3⟩ 5 "crit").messages =
      [⟨0, "hello"⟩, ⟨5, reflLabel 1 "crit"⟩] := by
  refine ⟨?_, ?_⟩
  · exact (generate_reflect_append_exactly_one ⟨[⟨0, "hello"⟩], none, 1, 3⟩ 5 "out"
      (by decide) (by decide)).1
  · exact (generate_reflect_append_exactly_one ⟨[⟨0, "hello"⟩], none, 1, 3⟩ 5 "crit"
      (by decide) (by decide)).2.2.1

/-- Nodes of the reflect graph (source create_basic_reflection_agent). -/
inductive RNode
  | generate
  | reflect
deriving DecidableEq, Repr

/-- Decision function on the generate node (source should_continue): continue
while the iteration counter is below the cap. -/
def shouldContinue (s : RState) : String :=
  if s.itr < s.max_iterations then "continue" else "end"

/-- Name-to-target table declared for the generate node's conditional edge
(source add_conditional_edges in create_basic_reflection_agent); the inner
none stands for the terminal sentinel END. -/
def reflectEdgeTable : List (String × Option RNode) :=
  [("continue", some RNode.reflect), ("end", none)]

/-- Edge router of the reflect graph, per the spec's Edge Router contract
(section 4.2): the decision value is mapped through the declared table, an
unmapped value being the fatal routing error (outer none); the reflect node
has the static edge back to generate. -/
def routeReflect : RNode → RState → Option (Option RNode)
  | RNode.generate, s => reflectEdgeTable.lookup (shouldContinue s)
  | RNode.reflect, _ => some (some RNode.generate)

/-- Apply one node of the reflect graph; gen and refl are the deterministic
model stubs giving the sub-loop's final text and the critique text at the
current iteration, fid the fresh message id supplied by the runtime. -/
def applyRNode (gen refl : Int → String) : RNode → RState → Nat → RState
  | RNode.generate, s, fid => applyGenerate s fid (gen s.itr)
  | RNode.reflect, s, fid => applyReflect s fid (refl s.itr)

/-- Fuelled executor run loop for the reflect graph, following the spec's
Executor algorithm (section 4.3): apply the current node, merge, route; stop
when the route is the terminal sentinel. Returns the sequence of executed
nodes, or none when the fuel runs out or routing fails. -/
def runReflectAux (gen refl : Int → String) :
    Nat → RNode → RState → Nat → Option (List RNode)
  | 0, _, _, _ => none
  | fuel + 1, n, s, fid =>
    match routeReflect n (applyRNode gen refl n s fid) with
    | none => none
    | some none => some [n]
    | some (some n2) =>
      (runReflectAux gen refl fuel n2 (applyRNode gen refl n s fid) (fid + 1)).map
        fun t => n :: t

/-- Entry state of a reflect run: empty history, no response yet, iteration
counter 0 (the source default), caller-supplied cap. -/
def initRState (m : Int) : RState :=
  ⟨[], none, 0, m⟩

/-- A full reflect run from the entry point generate (source
set_entry_point). -/
def runReflect (gen refl : Int → String) (fuel : Nat) (m : Int) :
    Option (List RNode) :=
  runReflectAux gen refl fuel RNode.generate (initRState m) 0

/-- C3: with max_iterations equal to 2 and deterministic stubs, the executed
node sequence is exactly generate, reflect, generate before END — two
generate invocations and one reflect invocation; and for every cap value,
every run that reaches END executed generate as its final node, never
reflect. -/
theorem reflect_run_trace :
    runReflect (fun i => "g" ++ toString i) (fun i => "r" ++ toString i) 10 2 =
      some [RNode.generate, RNode.reflect, RNode.generate] ∧
    ∀ (gen refl : Int → String) (fuel : Nat) (n : RNode) (s : RState) (fid : Nat)
      (t : List RNode), runReflectAux gen refl fuel n s fid = some t →
      t.getLast? = some RNode.generate := by
  constructor
  · decide
  · intro gen refl fuel
    induction fuel with
    | zero =>
      intro n s fid t h
      simp [runReflectAux] at h
    | succ k ih =>
      intro n s fid t h
      rw [runReflectAux] at h
      cases hr : routeReflect n (applyRNode gen refl n s fid) with
      | none => rw [hr] at h; cases h
      | some o =>
        cases o with
        | none =>
          rw [hr] at h
          have ht : t = [n] := by
            simpa using h.symm
          subst ht
          cases n with
          | generate => rfl
          | reflect =>
            exfalso
            simp [routeReflect] at hr
        | some n2 =>
          rw [hr] at h
          dsimp only at h
          cases hrec : runReflectAux gen refl k n2 (applyRNode gen refl n s fid) (fid + 1) with
          | none => rw [hrec] at h; cases h
          | some t2 =>
            rw [hrec] at h
            have ht : t = n :: t2 := by
              simpa using h.symm
            subst ht
            have hlast : t2.getLast? = some RNode.generate := ih n2 _ _ t2 hrec
            cases t2 with
            | nil => cases hlast
            | cons b l =>
              rw [List.getLast?_cons_cons]
              exact hlast

/-- Witness for C3's general conjunct at a concrete run: with cap 3 the trace
is generate, reflect, generate, reflect, generate and its last node is
generate. -/
theorem reflect_run_trace_witness :
    [RNode.generate, RNode.reflect, RNode.generate, RNode.reflect,
      RNode.generate].getLast? = some RNode.generate :=
  reflect_run_trace.2 (fun _ => "g") (fun _ => "r") 12 RNode.generate (initRState 3) 0
    [RNode.generate, RNode.reflect, RNode.generate, RNode.reflect, RNode.generate]
    (by decide)

/-- The plan-execute-replan graph state (source PlanExecute TypedDict):
input, plan and response overwrite, past_steps carries the operator.add
append reducer; the response key is absent until a node sets it, modelled as
none. -/
structure PlanExecute where
  input : String
  plan : List String
  past_steps : List (String × String)
  response : Option String
deriving DecidableEq, Repr

/-- A node's returned update for the PlanExecute state: only the keys the
node returned are present; for the append field past_steps the update holds
the list of new entries to concatenate. -/
structure PEUpdate where
  input : Option String := none
  plan : Option (List String) := none
  past_steps : List (String × String) := []
  response : Option String := none
deriving DecidableEq, Repr

/-- Merge of a returned update into the state, per the spec's State Container
contract (section 4.1) and the schema's reducers: overwrite fields replace
when the key is present, the past_steps append reducer concatenates the new
entries to the right of the existing sequence. -/
def mergePE (s : PlanExecute) (u : PEUpdate) : PlanExecute :=
  { input := u.input.getD s.input,
    plan := u.plan.getD s.plan,
    past_steps := s.past_steps ++ u.past_steps,
    response := match u.response with
      | some r => some r
      | none => s.response }

/-- Numbered rendering of the plan used in the execute node's task hint
(source plan_str). -/
def planStr (plan : List String) : String :=
  String.intercalate "\n" (plan.enum.map fun p => toString (p.1 + 1) ++ ". " ++ p.2)

/-- The task text handed to the react sub-agent (source task_formatted). -/
def taskFormatted (plan : List String) (task : String) : String :=
  "For the following plan:\n" ++ planStr plan ++
    "\n\nYou are tasked with executing step 1, " ++ task ++ "."

/-- One invocation of the execute node (source execute). On an empty plan it
returns only the explicit response and never calls the react sub-agent;
otherwise it runs the sub-agent on the first step of the plan (stub gives the
sub-agent's final message content), returning the one (task, result) pair for
past_steps and the remaining plan. The second component counts react
sub-agent invocations performed by the call. -/
def executeNode (stub : String → String) (s : PlanExecute) : PEUpdate × Nat :=
  match s.plan with
  | [] => ({ response := some "No steps to execute in the plan." }, 0)
  | task :: rest =>
    ({ past_steps := [(task, stub (taskFormatted (task :: rest) task))],
       plan := some rest }, 1)

/-- C7: whenever the execute node runs on a state whose plan is empty, its
returned update sets response to the explicit nothing-to-execute message and
nothing else, and the react sub-agent is invoked zero times. -/
theorem execute_empty_plan_no_model_call (stub : String → String) (inp : String)
    (ps : List (String × String)) (r : Option String) :
    executeNode stub { input := inp, plan := [], past_steps := ps, response := r } =
      ({ response := some "No steps to execute in the plan." }, 0) :=
  rfl

/-- C8: on any state whose plan is non-empty, one execute invocation appends
exactly the pair of the first plan element and its execution result to
past_steps and sets plan to the original plan with its first element removed,
calling the sub-agent once; in particular from plan a, b with empty past
steps, past_steps afterwards is the single pair for a and plan equals b. -/
theorem execute_step_pops_plan (stub : String → String) (inp task : String)
    (rest : List String) (ps : List (String × String)) (r : Option String) :
    (mergePE ⟨inp, task :: rest, ps, r⟩
        (executeNode stub ⟨inp, task :: rest, ps, r⟩).1).past_steps =
      ps ++ [(task, stub (taskFormatted (task :: rest) task))] ∧
    (mergePE ⟨inp, task :: rest, ps, r⟩
        (executeNode stub ⟨inp, task :: rest, ps, r⟩).1).plan = rest ∧
    (executeNode stub ⟨inp, task :: rest, ps, r⟩).2 = 1 ∧
    (mergePE ⟨"q", ["a", "b"], [], none⟩
        (executeNode stub ⟨"q", ["a", "b"], [], none⟩).1).past_steps =
      [("a", stub (taskFormatted ["a", "b"] "a"))] ∧
    (mergePE ⟨"q", ["a", "b"], [], none⟩
        (executeNode stub ⟨"q", ["a", "b"], [], none⟩).1).plan = ["b"] :=
  ⟨rfl, rfl, rfl, rfl, rfl⟩

/-- C9: merging the update with append entry x and then the update with
append entry y into any PlanExecute state equals merging the single update
with entries x then y — sequential appends compose, new elements
concatenated to the right in order. -/
theorem merge_append_assoc (s : PlanExecute) (x y : String × String) :
    mergePE (mergePE s { past_steps := [x] }) { past_steps := [y] } =
      mergePE s { past_steps := [x, y] } := by
  simp [mergePE]

/-- The terminal sentinel of the graph runtime (the END constant, the spec's
terminal sentinel): the distinguished routing target value of the runtime. -/
def ENDSentinel : String := "__end__"

/-- Decision function on the replan node (source should_end): it returns the
END sentinel itself when the response key is present and its value non-empty,
and the name continue otherwise. -/
def shouldEnd (s : PlanExecute) : String :=
  match s.response with
  | some r => if r ≠ "" then ENDSentinel else "continue"
  | none => "continue"

/-- Name-to-target table declared for the replan conditional edge (source
add_conditional_edges in create_plan_execute_replan_agent): the name end maps
to the END sentinel, the name continue to the execute node. -/
def replanEdgeTable : List (String × String) :=
  [("end", ENDSentinel), ("continue", "execute")]

/-- Edge router for the replan conditional edge, per the spec's Edge Router
contract (section 4.2): the decision value is mapped through the declared
table; an unmapped return value is the fatal routing error, modelled as
none. -/
def routeReplan (s : PlanExecute) : Option String :=
  replanEdgeTable.lookup (shouldEnd s)

/-- C1: refuted on the code. On a state whose response is set and non-empty,
the decision function returns the END sentinel itself — not the declared key
end — so mapping its return value through the declared table is the fatal
unmapped-return routing error instead of a route to END; only the continue
side routes. Evaluated at the failing input with response set to done. -/
theorem replan_routing_unmapped_on_response :
    shouldEnd { input := "q", plan := [], past_steps := [], response := some "done" } =
      ENDSentinel ∧
    ENDSentinel ≠ "end" ∧
    routeReplan { input := "q", plan := [], past_steps := [], response := some "done" } =
      none ∧
    routeReplan { input := "q", plan := [], past_steps := [], response := none } =
      some "execute" := by
  refine ⟨rfl, by decide, by decide, by decide⟩

/-- A stored recall document (source save_recall_memory Document): generated
id, text content, and the owner stamp written into the metadata. -/
structure RecallDoc where
  id : Nat
  text : String
  user_id : String
deriving DecidableEq, Repr

/-- Modelled from the spec: the owner-scoped search of the Memory Store
consumed by the long-term-memory graph (spec sections 4.8 and 6 — the store
itself is an outside collaborator, not part of src). Results are filtered
strictly by the owner id before the top-k ranked results are taken; the
similarity ranking is abstracted as the stored order, which the isolation
properties do not depend on. -/
def searchDocs (store : List RecallDoc) (uid : String) (k : Nat) : List RecallDoc :=
  (store.filter fun d => d.user_id = uid).take k

/-- Run configuration passed to the memory tools: the configurable map; a key
may be present with an explicit null value, modelled as some none. -/
structure MemRunConfig where
  configurable : List (String × Option String)
deriving DecidableEq, Repr

/-- Source get_user_id: reads user_id from the configurable map and raises
the ValueError when the key is absent or its value null, before anything
else runs. -/
def getUserId (config : MemRunConfig) : Except String String :=
  match config.configurable.lookup "user_id" with
  | some (some uid) => Except.ok uid
  | _ => Except.error "User ID needs to be provided to save a memory."

/-- Source save_recall_memory, store part: fail fast through getUserId, then
write one document stamped with the caller's user id (fresh document id fid
supplied by the runtime) and return the memory text together with the new
store contents. On the error side no store operation happens, so the store is
not part of the error result. -/
def saveRecallMemory (memory : String) (config : MemRunConfig)
    (store : List RecallDoc) (fid : Nat) :
    Except String (String × List RecallDoc) :=
  match getUserId config with
  | Except.error e => Except.error e
  | Except.ok uid => Except.ok (memory, store ++ [⟨fid, memory, uid⟩])

/-- Source search_recall_memories: fail fast through getUserId, then perform
the owner-scoped similarity search with k fixed at 3 and return the document
contents. -/
def searchRecallMemories (query : String) (config : MemRunConfig)
    (store : List RecallDoc) : Except String (List String) :=
  match getUserId config with
  | Except.error e => Except.error e
  | Except.ok uid => Except.ok ((searchDocs store uid 3).map RecallDoc.text)

/-- Source save_recall_memory, index wait loop: while the store does not
report the recall memory index queryable, sleep ten seconds and poll again.
The poll argument gives the store's answer at the n-th check; the fuelled
model returns the check number at which the loop exits when it does so
within the allotted number of steps, and none otherwise. The source loop
carries no retry counter and no timeout branch: its only exit is a positive
poll. -/
def waitForIndexQueryable (poll : Nat → Bool) : Nat → Nat → Option Nat
  | 0, _ => none
  | fuel + 1, n => if poll n then some n else waitForIndexQueryable poll fuel (n + 1)

/-- C4: refuted on the code. Against a store that never reports the index
queryable, the wait loop in save_recall_memory never exits, whatever number
of steps it is allotted: there is no bounded retry count and no surfaced
timeout, so save_recall_memory does not terminate in that case. -/
theorem wait_loop_unbounded :
    ∀ fuel start, waitForIndexQueryable (fun _ => false) fuel start = none := by
  intro fuel
  induction fuel with
  | zero => intro start; rfl
  | succ k ih => intro start; simpa [waitForIndexQueryable] using ih (start + 1)

/-- C5: search scoped to owner A returns only documents stamped with owner A
— for any store contents and any k — and the document a save under a
distinct owner B just wrote is never among A's results, even when its
content string is identical to one of A's memories. -/
theorem search_scoped_to_owner (store newStore : List RecallDoc)
    (A B mem : String) (cfgB : MemRunConfig) (fid : Nat) (k : Nat)
    (hAB : A ≠ B) (hB : getUserId cfgB = Except.ok B)
    (hsave : saveRecallMemory mem cfgB store fid = Except.ok (mem, newStore)) :
    (∀ d ∈ searchDocs newStore A k, d.user_id = A) ∧
    RecallDoc.mk fid mem B ∉ searchDocs newStore A k := by
  have hnew : newStore = store ++ [RecallDoc.mk fid mem B] := by
    unfold saveRecallMemory at hsave
    rw [hB] at hsave
    simp only [Except.ok.injEq, Prod.mk.injEq] at hsave
    exact hsave.2.symm
  subst hnew
  have howner : ∀ d ∈ searchDocs (store ++ [RecallDoc.mk fid mem B]) A k,
      d.user_id = A := by
    intro d hd
    simp only [searchDocs] at hd
    have hd2 := List.take_subset k _ hd
    have := List.mem_filter.mp hd2
    exact of_decide_eq_true this.2
  refine ⟨howner, fun hmem => ?_⟩
  have : (RecallDoc.mk fid mem B).user_id = A := howner _ hmem
  exact hAB (this.symm)

/-- Witness for C5 at a concrete store: owner A already holds the content
pizza, owner B saves the identical content; search scoped to A returns only
A's documents and not B's newly saved one. -/
theorem search_scoped_to_owner_witness :
    (∀ d ∈ searchDocs [⟨0, "pizza", "A"⟩, ⟨1, "pizza", "B"⟩] "A" 5, d.user_id = "A") ∧
    RecallDoc.mk 1 "pizza" "B" ∉ searchDocs [⟨0, "pizza", "A"⟩, ⟨1, "pizza", "B"⟩] "A" 5 :=
  search_scoped_to_owner [⟨0, "pizza", "A"⟩] [⟨0, "pizza", "A"⟩, ⟨1, "pizza", "B"⟩]
    "A" "B" "pizza" ⟨[("user_id", some "B")]⟩ 1 5
    (by decide) rfl rfl

/-- C6: invoked with a run configuration whose configurable map has no
user_id entry, or a null one, both memory tools return the ValueError
immediately — the save writes nothing and the search reads nothing, and no
default identifier is substituted. -/
theorem memory_tools_fail_fast (memory query : String) (config : MemRunConfig)
    (store : List RecallDoc) (fid : Nat)
    (h : config.configurable.lookup "user_id" = none ∨
         config.configurable.lookup "user_id" = some none) :
    saveRecallMemory memory config store fid =
      Except.error "User ID needs to be provided to save a memory." ∧
    searchRecallMemories query config store =
      Except.error "User ID needs to be provided to save a memory." := by
  have herr : getUserId config =
      Except.error "User ID needs to be provided to save a memory." := by
    rcases h with h | h <;> simp [getUserId, h]
  exact ⟨by simp [saveRecallMemory, herr], by simp [searchRecallMemories, herr]⟩

/-- Witness for C6 at a concrete configuration with an empty configurable
map. -/
theorem memory_tools_fail_fast_witness :
    saveRecallMemory "m" ⟨[]⟩ [] 0 =
      Except.error "User ID needs to be provided to save a memory." ∧
    searchRecallMemories "m" ⟨[]⟩ [] =
      Except.error "User ID needs to be provided to save a memory." :=
  memory_tools_fail_fast "m" "m" ⟨[]⟩ [] 0 (Or.inl rfl)

/-- Python truthiness of an optional string field: absent or empty is
falsy. -/
def optStrTruthy : Option String → Bool
  | some s => s ≠ ""
  | none => false

/-- Agent configuration as seen by the loader (source AgentConfig): prompt
and connection fields model Python None as none and keep the empty string
distinct; llm presence is all the loader's checks inspect of the model, and
additional_kwargs is the optional string-keyed map. Fields whose handling
can never raise in load_agent (tools, verbose, checkpointer_config — the
checkpointer failure is caught and logged) are omitted as they do not affect
its control flow. -/
structure AgentConfig where
  agent_type : String
  name : String := "default_agent"
  system_prompt : Option String := none
  reflection_prompt : Option String := none
  system_prompt_path : Option String := none
  reflection_prompt_path : Option String := none
  llm_present : Bool := false
  connection_str : Option String := none
  ns : Option String := none
  additional_kwargs : Option (List (String × String)) := none
deriving DecidableEq, Repr

/-- Source load_prompt_from_file: when the prompt is falsy and a path is
given, read the file (fs maps a path to its contents, none when the read
raises) and return its contents, converting a read failure into the
ValueError; otherwise return the prompt unchanged. -/
def loadPromptFromFile (fs : String → Option String) (prompt path : Option String) :
    Except String (Option String) :=
  if optStrTruthy prompt then Except.ok prompt
  else match path with
    | some p =>
      if p = "" then Except.ok prompt
      else match fs p with
        | some content => Except.ok (some content)
        | none => Except.error ("Failed to load prompt from " ++ p)
    | none => Except.ok prompt

/-- Lower-casing of one ASCII character, as Python str.lower does on the
agent type names. -/
def lowerChar (c : Char) : Char :=
  if 65 ≤ c.toNat ∧ c.toNat ≤ 90 then Char.ofNat (c.toNat + 32) else c

/-- Lower-casing of the agent type string (source config.agent_type.lower()). -/
def lowerStr (s : String) : String :=
  String.mk (s.data.map lowerChar)

/-- The supported agent type names (source AGENT_CONFIG keys). -/
def supportedType (ty : String) : Bool :=
  ["react", "tool_call", "reflect", "plan_execute_replan", "long_term_memory"].contains ty

/-- Required fields per agent type (source AGENT_CONFIG required_fields). -/
def requiredFields : String → List String
  | "react" => ["llm", "system_prompt"]
  | "tool_call" => ["llm"]
  | "reflect" => ["llm", "system_prompt", "reflection_prompt"]
  | "plan_execute_replan" => ["llm", "system_prompt"]
  | "long_term_memory" => ["llm", "connection_str", "namespace"]
  | _ => []

/-- Truthiness of a named config field, as the source's getattr-based
required-field check sees it. -/
def fieldTruthy (c : AgentConfig) : String → Bool
  | "llm" => c.llm_present
  | "system_prompt" => optStrTruthy c.system_prompt
  | "reflection_prompt" => optStrTruthy c.reflection_prompt
  | "connection_str" => optStrTruthy c.connection_str
  | "namespace" => optStrTruthy c.ns
  | _ => true

/-- The agent the loader hands to the factory, reduced to the kwargs that
distinguish the types (source agent_kwargs and the AgentFactory call). -/
inductive LoadedAgent
  | reactAgent (prompt : Option String)
  | toolCallAgent (prompt : Option String)
  | reflectAgent (generate_prompt reflection_prompt : Option String)
  | planExecuteReplanAgent (execute_prompt : Option String)
  | longTermMemoryAgent (connection_str ns : Option String)
deriving DecidableEq, Repr

/-- Source load_agent control flow: lower-case the type and reject
unsupported ones, load both prompts from their files when only paths are
given, check the type's required fields, then take the type-specific branch
— for reflect, additional_kwargs must be non-empty and contain the
reflection_prompt key, else the ValueError is raised. Factory errors can
only occur after a branch succeeds and are outside this model. -/
def loadAgent (fs : String → Option String) (config : AgentConfig) :
    Except String LoadedAgent :=
  if supportedType (lowerStr config.agent_type) = false then
    Except.error ("Unsupported agent type: " ++ lowerStr config.agent_type)
  else
    match loadPromptFromFile fs config.system_prompt config.system_prompt_path with
    | Except.error e => Except.error e
    | Except.ok sys =>
      match loadPromptFromFile fs config.reflection_prompt config.reflection_prompt_path with
      | Except.error e => Except.error e
      | Except.ok rp =>
        if (requiredFields (lowerStr config.agent_type)).all
            (fieldTruthy { config with system_prompt := sys, reflection_prompt := rp })
            = false then
          Except.error ("Missing required field(s) for " ++ lowerStr config.agent_type
            ++ " agent")
        else if lowerStr config.agent_type = "reflect" then
          match config.additional_kwargs with
          | some kws =>
            if (kws.lookup "reflection_prompt").isSome then
              Except.ok (LoadedAgent.reflectAgent sys rp)
            else
              Except.error "Reflection agent requires a reflection_prompt in additional_kwargs"
          | none =>
            Except.error "Reflection agent requires a reflection_prompt in additional_kwargs"
        else if lowerStr config.agent_type = "react" then
          Except.ok (LoadedAgent.reactAgent sys)
        else if lowerStr config.agent_type = "tool_call" then
          Except.ok (LoadedAgent.toolCallAgent sys)
        else if lowerStr config.agent_type = "plan_execute_replan" then
          Except.ok (LoadedAgent.planExecuteReplanAgent sys)
        else
          Except.ok (LoadedAgent.longTermMemoryAgent config.connection_str config.ns)

/-- C10: for agent type reflect, load_agent raises a ValueError whenever
additional_kwargs is absent or lacks the reflection_prompt key — whatever
the reflection_prompt field or its path hold — and a reflect agent is only
ever constructed when additional_kwargs contains that key. -/
theorem reflect_requires_additional_kwargs (fs : String → Option String)
    (config : AgentConfig) (hty : config.agent_type = "reflect") :
    ((config.additional_kwargs = none ∨
        ∃ kws, config.additional_kwargs = some kws ∧
          kws.lookup "reflection_prompt" = none) →
      ∃ e, loadAgent fs config = Except.error e) ∧
    ∀ a, loadAgent fs config = Except.ok a →
      ∃ kws, config.additional_kwargs = some kws ∧
        (kws.lookup "reflection_prompt").isSome = true := by
  have hlow : lowerStr config.agent_type = "reflect" := by rw [hty]; decide
  unfold loadAgent
  rw [hlow]
  rw [if_neg (by decide : ¬ (supportedType "reflect" = false))]
  cases hs : loadPromptFromFile fs config.system_prompt config.system_prompt_path with
  | error e =>
    exact ⟨fun _ => ⟨e, rfl⟩, fun a ha => nomatch ha⟩
  | ok sys =>
    cases hr : loadPromptFromFile fs config.reflection_prompt config.reflection_prompt_path with
    | error e =>
      exact ⟨fun _ => ⟨e, rfl⟩, fun a ha => nomatch ha⟩
    | ok rp =>
      dsimp only
      cases hreq : (requiredFields "reflect").all
          (fieldTruthy { config with system_prompt := sys, reflection_prompt := rp }) with
      | false =>
        rw [if_pos rfl]
        exact ⟨fun _ => ⟨_, rfl⟩, fun a ha => nomatch ha⟩
      | true =>
        rw [if_neg (by decide : ¬ (true = false)), if_pos rfl]
        cases hkw : config.additional_kwargs with
        | none =>
          exact ⟨fun _ => ⟨_, rfl⟩, fun a ha => nomatch ha⟩
        | some kws =>
          dsimp only
          cases hlook : (kws.lookup "reflection_prompt").isSome with
          | false =>
            rw [if_neg (by decide : ¬ (false = true))]
            exact ⟨fun _ => ⟨_, rfl⟩, fun a ha => nomatch ha⟩
          | true =>
            rw [if_pos rfl]
            refine ⟨fun hcase => ?_, fun a _ => ⟨kws, rfl, hlook⟩⟩
            rcases hcase with h | ⟨kws2, hkw2, hl2⟩
            · cases h
            · cases hkw2
              rw [hl2] at hlook
              cases hlook

/-- Witness for C10 at a concrete configuration: reflection_prompt is set,
required fields pass, additional_kwargs is absent, and load_agent errors. -/
theorem reflect_requires_additional_kwargs_witness :
    ∃ e, loadAgent (fun _ => none)
        { agent_type := "reflect", system_prompt := some "sys",
          reflection_prompt := some "refl", llm_present := true } =
      Except.error e :=
  (reflect_requires_additional_kwargs (fun _ => none)
      { agent_type := "reflect", system_prompt := some "sys",
        reflection_prompt := some "refl", llm_present := true } rfl).1
    (Or.inl rfl)

end AgentBuilder
